import Mathlib

/-!
Verification of the carddown core against its specification.

The Rust sources are shallowly embedded: `f64` arithmetic is modelled by
exact rationals (`ℚ`), `u64` by `ℕ` with explicit saturation at `2^64 - 1`,
`chrono` timestamps and durations by rationals counted in seconds
(`Duration::days d` = `86400 * d`, `Duration::hours h` = `3600 * h`,
`Duration::weeks 1` = `604800`), `HashMap` by functions into `Option`,
and `blake3::Hash` card identities by `ℕ`.  Fallible operations return
`Except String`.  Extreme floating-point values (NaN, infinities) are
modelled separately by the `FV` type where a claim needs them.
-/

namespace Carddown

/-- Review quality, from `src/algorithm/mod.rs` (`enum Quality`). -/
inductive Quality
  | Perfect
  | CorrectWithHesitation
  | CorrectWithDifficulty
  | IncorrectButEasyToRecall
  | IncorrectButRemembered
  | IncorrectAndForgotten
deriving DecidableEq

/-- Numeric value of a quality (`Quality as usize`, 0-5). -/
def Quality.val : Quality → ℕ
  | .Perfect => 5
  | .CorrectWithHesitation => 4
  | .CorrectWithDifficulty => 3
  | .IncorrectButEasyToRecall => 2
  | .IncorrectButRemembered => 1
  | .IncorrectAndForgotten => 0

/-- `Quality::failed`, true for values in 0,1,2 (`src/algorithm/mod.rs`). -/
def Quality.failed : Quality → Bool
  | .IncorrectAndForgotten => true
  | .IncorrectButRemembered => true
  | .IncorrectButEasyToRecall => true
  | _ => false

/-- Rust `f64::round`: round to nearest, ties away from zero. -/
def roundHalf (q : ℚ) : ℤ :=
  if 0 ≤ q then ⌊q + 1/2⌋ else -⌊-q + 1/2⌋

/-- `f64::round` viewed as a float-to-float map (the result is integral). -/
def roundQ (q : ℚ) : ℚ := (roundHalf q : ℚ)

/-- Saturate an integer into the `u64` range. -/
def u64_saturate (z : ℤ) : ℕ :=
  if z ≤ 0 then 0
  else if (18446744073709551615 : ℤ) ≤ z then 18446744073709551615
  else z.toNat

/-- Rust `as`-cast from `f64` to `u64` on finite values: truncation toward
zero, saturating at the ends of the `u64` range (used at
`src/algorithm/sm5.rs:83`, `res.round() as u64`). -/
def f64_to_u64 (x : ℚ) : ℕ := u64_saturate ⌊x⌋

/-- Modelled from the spec: the body of `safe_f64_to_u64` is missing from
the sources (only its call sites in `src/algorithm/sm2.rs` and
`src/algorithm/simple8.rs` remain); the spec requires float-to-integer
interval conversions to saturate rather than overflow on extreme inputs.
Truncation toward zero (rather than rounding) on finite values is pinned
by the in-repository test `test_simple8_corner_cases`, which requires
`safe_f64_to_u64(first_interval(5))`, about 1.87, to land strictly below
2. -/
def safe_f64_to_u64 (x : ℚ) : ℕ := u64_saturate ⌊x⌋

/-- `round_float` from `src/algorithm/mod.rs`: round to `fix` decimals. -/
def round_float (f : ℚ) (fix : ℕ) : ℚ :=
  let factor : ℚ := 10 ^ fix
  roundQ (f * factor) / factor

/-- Per-card algorithm state (`CardState`, `src/algorithm/mod.rs`). -/
structure CardState where
  ease_factor : ℚ
  interval : ℕ
  repetitions : ℕ
  failed_count : ℕ
deriving DecidableEq

/-- `CardState::default`: ease 2.5, everything else zero. -/
def CardState.init : CardState :=
  { ease_factor := 2.5, interval := 0, repetitions := 0, failed_count := 0 }

/-- Shared ease-factor recurrence `new_ease_factor`
(`src/algorithm/mod.rs:80-84`): `max(1.3, ef + 0.1 - (5-q)(0.08 + (5-q)·0.02))`. -/
def new_ease_factor (quality : Quality) (ease_factor : ℚ) : ℚ :=
  let q : ℚ := quality.val
  let new_ef := ease_factor + 0.1 - (5.0 - q) * (0.08 + (5.0 - q) * 0.02)
  max new_ef 1.3

/-- The learned table `OptimalFactorMatrix`
(`HashMap<u64, HashMap<OrderedFloat<f64>, f64>>`), as nested optional maps. -/
def OFMatrix : Type := ℕ → Option (ℚ → Option ℚ)

/-- Cross-card statistics (`GlobalState`, `src/db.rs`). -/
structure GlobalState where
  optimal_factor_matrix : OFMatrix
  last_revise_session : Option ℚ
  mean_q : Option ℚ
  total_cards_revised : ℕ

/-- `GlobalState::default`: empty matrix, no session, no mean. -/
def GlobalState.init : GlobalState :=
  { optimal_factor_matrix := fun _ => none
    last_revise_session := none
    mean_q := none
    total_cards_revised := 0 }

/-- `Sm2::update_state` (`src/algorithm/sm2.rs:8-29`).  The global state is
unused by this algorithm (`_global`). -/
def sm2_update (quality : Quality) (state : CardState) : CardState :=
  if quality.failed then
    { state with repetitions := 0, interval := 0, failed_count := state.failed_count + 1 }
  else
    let state' :=
      match state.repetitions with
      | 0 => { state with interval := 1 }
      | 1 => { state with interval := 6 }
      | _ =>
        let new_interval := (state.interval : ℚ) * state.ease_factor
        { state with interval := safe_f64_to_u64 (roundQ new_interval) }
    { state' with
        repetitions := state'.repetitions + 1
        ease_factor := new_ease_factor quality state'.ease_factor }

/-- `get_optimal_factor` (`src/algorithm/sm5.rs:62-69`): look up the learned
factor at `(repetitions, ease_factor rounded to 2 decimals)`; default 4.0
when `repetitions == 0`, otherwise the ease factor itself. -/
def get_optimal_factor (repetitions : ℕ) (ease_factor : ℚ) (of_matrix : OFMatrix) : ℚ :=
  (((of_matrix repetitions).bind fun factors =>
      factors (round_float ease_factor 2)).getD
    (if repetitions = 0 then 4.0 else ease_factor))

/-- `new_optimal_factor` (`src/algorithm/sm5.rs:42-49`): blend the current
optimal factor 50/50 toward `factor * (0.72 + 0.07 * quality)`. -/
def new_optimal_factor (optimal_factor : ℚ) (quality : Quality) : ℚ :=
  let fraction : ℚ := 0.5
  let q : ℚ := quality.val
  let tmp := optimal_factor * (0.72 + q * 0.07)
  (1.0 - fraction) * optimal_factor + fraction * tmp

/-- `update_optimal_factor_matrix` (`src/algorithm/sm5.rs:51-60`): remove the
row for `repetitions` (default empty), store the factor at the rounded ease
key, and put the row back. -/
def update_optimal_factor_matrix (repetitions : ℕ) (ease_factor : ℚ)
    (optimal_factor : ℚ) (of_matrix : OFMatrix) : OFMatrix :=
  let factors := (of_matrix repetitions).getD (fun _ => none)
  let factors' := fun k =>
    if k = round_float ease_factor 2 then some optimal_factor else factors k
  fun r => if r = repetitions then some factors' else of_matrix r

/-- `repetition_interval` (`src/algorithm/sm5.rs:71-84`): the optimal factor
itself when `repetitions == 0`, else `last_interval * factor`; then
`res.round() as u64`. -/
def repetition_interval (last_interval : ℕ) (repetitions : ℕ) (ease_factor : ℚ)
    (of_matrix : OFMatrix) : ℕ :=
  let optimal_factor := get_optimal_factor repetitions ease_factor of_matrix
  let res := if repetitions = 0 then optimal_factor
    else (last_interval : ℚ) * optimal_factor
  f64_to_u64 (roundQ res)

/-- `Sm5::update_state` (`src/algorithm/sm5.rs:9-36`), returning the updated
card state and global state. -/
def sm5_update (quality : Quality) (state : CardState) (global : GlobalState) :
    CardState × GlobalState :=
  let new_ef := new_ease_factor quality state.ease_factor
  let of := get_optimal_factor state.repetitions state.ease_factor
    global.optimal_factor_matrix
  let new_of := new_optimal_factor of quality
  let global' := { global with
    optimal_factor_matrix := update_optimal_factor_matrix state.repetitions
      new_ef new_of global.optimal_factor_matrix }
  if quality.failed then
    ({ state with repetitions := 0, interval := 0 }, global')
  else
    ({ state with
        interval := repetition_interval state.interval state.repetitions new_ef
          global'.optimal_factor_matrix
        repetitions := state.repetitions + 1
        ease_factor := new_ef }, global')

/-- Models of the `f64` transcendental functions used by
`src/algorithm/simple8.rs`, which live in the Rust standard library and are
external to the repository: `E.powf`, `f64::log2`, and `0.5_f64.powf`.
The algorithm embeddings are parameterized over them; claims quantify over
all such models. -/
structure Simple8Funs where
  expE : ℚ → ℚ
  log2 : ℚ → ℚ
  powHalf : ℚ → ℚ

/-- `first_interval` (`src/algorithm/simple8.rs:29-31`):
`2.4849 * e^(-0.057 * total_failures)`. -/
def first_interval (fs : Simple8Funs) (total_failures : ℕ) : ℚ :=
  2.4849 * fs.expE (-0.057 * (total_failures : ℚ))

/-- `interval_factor` (`src/algorithm/simple8.rs:33-38`):
`1.2 + (ease - 1.2) * 0.5^log2(repetitions)`, with the log term 0 when
`repetitions == 0`. -/
def interval_factor (fs : Simple8Funs) (ease : ℚ) (repetitions : ℕ) : ℚ :=
  let r : ℚ := repetitions
  let log_r := if r > 0 then fs.log2 r else 0
  1.2 + (ease - 1.2) * fs.powHalf log_r

/-- `quality_to_ease` (`src/algorithm/simple8.rs:40-50`), the quartic fit;
`mul_add a b c = a * b + c` is exact in ℚ. -/
def quality_to_ease (q : ℚ) : ℚ :=
  let q2 := q * q
  let q3 := q2 * q
  let q4 := q3 * q
  q4 * 0.0542 + (q3 * (-0.4848) + (q2 * 1.4916 + (q * (-1.2403) + 1.4515)))

/-- `Simple8::update_state` (`src/algorithm/simple8.rs:6-26`).  The global
state is read (`mean_q`) but never written. -/
def simple8_update (fs : Simple8Funs) (quality : Quality) (state : CardState)
    (global : GlobalState) : CardState :=
  if quality.failed then
    { state with
        repetitions := 0
        interval := 0
        failed_count := state.failed_count + 1 }
  else if state.repetitions = 0 || state.interval = 0 then
    { state with
        interval := safe_f64_to_u64 (first_interval fs state.failed_count)
        repetitions := state.repetitions + 1 }
  else
    let q := global.mean_q.getD (quality.val : ℚ)
    let factor := interval_factor fs (quality_to_ease q) state.repetitions
    let new_interval := (state.interval : ℚ) * factor
    { state with
        interval := safe_f64_to_u64 (roundQ new_interval)
        repetitions := state.repetitions + 1 }

/-- The three algorithm variants (`enum Algo`, `src/algorithm/mod.rs`). -/
inductive Algo
  | SM2
  | SM5
  | Simple8
deriving DecidableEq

/-- One `update_state` call dispatched through `new_algorithm`
(`src/algorithm/mod.rs:72-78`): SM2 and Simple8 leave the global state
unchanged, SM5 may update its optimal-factor matrix. -/
def applyAlgo (fs : Simple8Funs) (algo : Algo) (quality : Quality)
    (sg : CardState × GlobalState) : CardState × GlobalState :=
  match algo with
  | .SM2 => (sm2_update quality sg.1, sg.2)
  | .SM5 => sm5_update quality sg.1 sg.2
  | .Simple8 => (simple8_update fs quality sg.1 sg.2, sg.2)

/-- A review sequence: each reviewed card runs one `update_state` with some
algorithm and quality, threading card and global state. -/
def runSeq (fs : Simple8Funs) (steps : List (Algo × Quality))
    (sg : CardState × GlobalState) : CardState × GlobalState :=
  steps.foldl (fun sg step => applyAlgo fs step.1 step.2 sg) sg

/-- A recognized flashcard (`Card`, `src/card.rs`); `blake3::Hash` identity
is modelled by `ℕ`, the file path by a string. -/
structure Card where
  id : ℕ
  file : String
  line : ℕ
  prompt : String
  response : List String
  tags : List String
deriving DecidableEq

/-- A card bound to its state and review metadata (`CardEntry`,
`src/db.rs:49-58`).  Timestamps are rationals in seconds. -/
structure CardEntry where
  added : ℚ
  card : Card
  last_revised : Option ℚ
  leech : Bool
  orphan : Bool
  revise_count : ℕ
  state : CardState
deriving DecidableEq

/-- `CardEntry::new` (`src/db.rs:60-72`), with `Utc::now()` passed in
explicitly as `now`. -/
def CardEntry.new (now : ℚ) (card : Card) : CardEntry :=
  { added := now
    card := card
    last_revised := none
    leech := false
    orphan := false
    revise_count := 0
    state := CardState.init }

/-- The card store (`CardDb = HashMap<blake3::Hash, CardEntry>`) as a
optional-valued map from identities to entries. -/
def CardDb : Type := ℕ → Option CardEntry

/-- The empty store (`HashMap::new()`). -/
def emptyDb : CardDb := fun _ => none

/-- `found_cards.into_iter().map(|c| (c.id, CardEntry::new(c))).collect()`
(`src/db.rs:177-180`): inserting in order, so a later card with the same id
wins. -/
def foundMap (now : ℚ) (found : List Card) : CardDb :=
  found.foldl
    (fun m c => fun i => if i = c.id then some (CardEntry.new now c) else m i)
    emptyDb

/-- The last card of `found` carrying a given id, if any (the entry that
survives in `foundMap`). -/
def findLastCard : List Card → ℕ → Option Card
  | [], _ => none
  | c :: cs, id =>
    match findLastCard cs id with
    | some c' => some c'
    | none => if c.id = id then some c else none

/-- Membership in `found_ids` (`src/db.rs:181`), the id set of the found
cards. -/
def inFoundIds (found : List Card) (id : ℕ) : Bool :=
  found.any fun c => c.id = id

/-- The net effect of the update-existing loop body (`src/db.rs:190-200`)
on one entry: copy the found card in when it differs, clear `orphan` when
set. -/
def merge_entry (entry newE : CardEntry) : CardEntry :=
  let entry1 := if entry.card ≠ newE.card then { entry with card := newE.card } else entry
  let entry2 := if entry1.orphan then { entry1 with orphan := false } else entry1
  entry2

/-- `update_db` (`src/db.rs:163-238`), the reconciliation pass, minus the
file I/O around it.  The empty-`found` early return (`src/db.rs:164-167`)
leaves the store untouched.  Otherwise the three loops of the source
partition the ids: an id both existing and found keeps its entry but takes
the found card (when different) and has `orphan` cleared; a found id that
does not exist gets a fresh entry; when `full`, an existing id absent from
`found` is marked `orphan`.  The loops never remove an id, so the whole
pass is a per-id map, written here pointwise. -/
def update_db (now : ℚ) (db : CardDb) (found : List Card) (full : Bool) : CardDb :=
  if found.isEmpty then db
  else fun id =>
    match db id, foundMap now found id with
    | some entry, some newE => some (merge_entry entry newE)
    | none, some newE => some newE
    | some entry, none => if full then some { entry with orphan := true } else some entry
    | none, none => none

/-- The state of the store file on disk, as far as `get_db` can observe it:
absent, or present with some text content.  (A read error aborts with
context and is outside this model.) -/
inductive FileState
  | absent
  | present (content : String)

/-- Rust `data.trim().is_empty()`: the content consists of whitespace
only. -/
def trimIsEmpty (s : String) : Bool := s.data.all Char.isWhitespace

/-- `get_db` (`src/db.rs:120-138`), parameterized by the `serde_json`
deserializer `parse`, which is external to the repository: a missing file
and a file whose trimmed content is empty yield the empty store; any other
content is parsed, and a parse failure is returned as an error with the
context `Failed to deserialise db`.  A parsed entry list is keyed by
`entry.card.id`, later entries winning. -/
def get_db (parse : String → Except String (List CardEntry)) (fs : FileState) :
    Except String CardDb :=
  match fs with
  | .absent => .ok emptyDb
  | .present data =>
    if trimIsEmpty data then .ok emptyDb
    else
      match parse data with
      | .error _ => .error "Failed to deserialise db"
      | .ok entries =>
        .ok (entries.foldl
          (fun m e => fun i => if i = e.card.id then some e else m i) emptyDb)

/-- One week, `chrono::Duration::weeks(1)`, in seconds. -/
def oneWeek : ℚ := 604800

/-- `refresh_global_state` (`src/db.rs:101-112`): when the last revise
session lies strictly more than one week in the past, reset `mean_q` and
`total_cards_revised`; in every case stamp `last_revise_session = now`. -/
def refresh_global_state (now : ℚ) (state : GlobalState) : GlobalState :=
  let state1 :=
    match state.last_revise_session with
    | some last_session =>
      if now - last_session > oneWeek then
        { state with total_cards_revised := 0, mean_q := none }
      else state
    | none => state
  { state1 with last_revise_session := some now }

/-- Leech handling policy (`enum LeechMethod`, `src/main.rs`). -/
inductive LeechMethod
  | Skip
  | Warn
deriving DecidableEq

/-- The due predicate, the first filter of `filter_cards`
(`src/main.rs:240-251`): never revised is due; in cram mode due iff at
least `cram_hours` hours have elapsed since the last review; otherwise due
iff `today` has reached `last_revised` plus `interval` days. -/
def is_due (today : ℚ) (cram_mode : Bool) (cram_hours : ℕ) (c : CardEntry) : Bool :=
  match c.last_revised with
  | some last_revised =>
    if cram_mode then
      decide (today - last_revised ≥ 3600 * (cram_hours : ℚ))
    else
      let next_date := last_revised + 86400 * (c.state.interval : ℚ)
      decide (today ≥ next_date)
  | none => true

/-- `filter_cards` (`src/main.rs:230-256`): due, then tag intersection
(no-op when the requested tag set is empty), then orphan inclusion, then
leech skipping.  The store snapshot arrives as a list of entries
(`db.into_values()`). -/
def filter_cards (today : ℚ) (db : List CardEntry) (tags : List String)
    (include_orphans : Bool) (leech_method : LeechMethod)
    (cram_mode : Bool) (cram_hours : ℕ) : List CardEntry :=
  ((((db.filter (is_due today cram_mode cram_hours)).filter
      (fun c => tags.isEmpty || c.card.tags.any fun t => tags.contains t)).filter
      (fun c => include_orphans || !c.orphan)).filter
      (fun c => !(leech_method = LeechMethod.Skip && c.leech)))

/-- An `f64` value including the non-finite cases, for the numeric
edge-case claims: NaN, the two infinities, or a finite value. -/
inductive FV
  | nan
  | posInf
  | negInf
  | fin (q : ℚ)

/-- `f64::round` on extended values: NaN and the infinities are fixed
points, finite values round half away from zero. -/
def FV.roundF : FV → FV
  | .fin q => .fin (roundQ q)
  | v => v

/-- The saturating `f64`-to-`u64` conversion on extended values (Rust
`as`-cast semantics, and the saturation the spec requires for
`safe_f64_to_u64`): NaN and negative infinity give 0, positive infinity
gives `u64::MAX`, finite values truncate toward zero and clamp into the
`u64` range. -/
def FV.toU64sat : FV → ℕ
  | .nan => 0
  | .posInf => 18446744073709551615
  | .negInf => 0
  | .fin q => u64_saturate ⌊q⌋

/-- The round-then-convert composite performed at `src/algorithm/sm2.rs:23`
(`safe_f64_to_u64(new_interval.round())`), `src/algorithm/sm5.rs:83`
(`res.round() as u64`) and `src/algorithm/simple8.rs:19`, on extended
values. -/
def round_then_convert (v : FV) : ℕ := FV.toU64sat (FV.roundF v)

/-! ## Theorems -/

/-- C6: under the classic two-parameter (SM2) model, three consecutive
Perfect reviews from the default card state yield intervals 1, 6, 16 and
ease factors 2.6, 2.7, 2.8 (the third exactly 2.8 in exact arithmetic,
matching the approximately 2.80 of the spec). -/
theorem sm2_three_perfect_reviews :
    (sm2_update Quality.Perfect CardState.init).interval = 1
    ∧ (sm2_update Quality.Perfect CardState.init).ease_factor = 2.6
    ∧ (sm2_update Quality.Perfect
        (sm2_update Quality.Perfect CardState.init)).interval = 6
    ∧ (sm2_update Quality.Perfect
        (sm2_update Quality.Perfect CardState.init)).ease_factor = 2.7
    ∧ (sm2_update Quality.Perfect (sm2_update Quality.Perfect
        (sm2_update Quality.Perfect CardState.init))).interval = 16
    ∧ (sm2_update Quality.Perfect (sm2_update Quality.Perfect
        (sm2_update Quality.Perfect CardState.init))).ease_factor = 2.8 := by
  simp only [sm2_update, CardState.init, new_ease_factor, Quality.val, Quality.failed,
    safe_f64_to_u64, roundHalf, roundQ, u64_saturate]
  norm_num
  rfl

/-- C3: the five-parameter (SM5) `update_state` updates the global
optimal-factor matrix unconditionally: for every quality, success or
failure, looking the updated matrix up at the key written by the update
(old repetitions, new ease factor rounded to two decimals) yields the
blended optimal factor; and on a failed review the card state has
repetitions 0 and interval 0 while its ease factor is unchanged. -/
theorem sm5_matrix_unconditional_and_failure (quality : Quality)
    (state : CardState) (global : GlobalState) :
    (((sm5_update quality state global).2.optimal_factor_matrix
        state.repetitions).bind (fun factors =>
          factors (round_float (new_ease_factor quality state.ease_factor) 2))
      = some (new_optimal_factor
          (get_optimal_factor state.repetitions state.ease_factor
            global.optimal_factor_matrix) quality))
    ∧ (quality.failed = true →
        (sm5_update quality state global).1.repetitions = 0
        ∧ (sm5_update quality state global).1.interval = 0
        ∧ (sm5_update quality state global).1.ease_factor = state.ease_factor) := by
  constructor
  · unfold sm5_update
    split
    · simp [update_optimal_factor_matrix]
    · simp [update_optimal_factor_matrix]
  · intro hf
    unfold sm5_update
    simp [hf]

/-- Witness for C3 at a concrete failed review: quality
IncorrectAndForgotten from the default states. -/
theorem sm5_matrix_unconditional_and_failure_witness :
    (((sm5_update Quality.IncorrectAndForgotten CardState.init GlobalState.init).2.optimal_factor_matrix
        CardState.init.repetitions).bind (fun factors =>
          factors (round_float (new_ease_factor Quality.IncorrectAndForgotten CardState.init.ease_factor) 2))
      = some (new_optimal_factor
          (get_optimal_factor CardState.init.repetitions CardState.init.ease_factor
            GlobalState.init.optimal_factor_matrix) Quality.IncorrectAndForgotten))
    ∧ ((sm5_update Quality.IncorrectAndForgotten CardState.init GlobalState.init).1.repetitions = 0
        ∧ (sm5_update Quality.IncorrectAndForgotten CardState.init GlobalState.init).1.interval = 0
        ∧ (sm5_update Quality.IncorrectAndForgotten CardState.init GlobalState.init).1.ease_factor
          = CardState.init.ease_factor) :=
  ⟨(sm5_matrix_unconditional_and_failure Quality.IncorrectAndForgotten CardState.init GlobalState.init).1,
   (sm5_matrix_unconditional_and_failure Quality.IncorrectAndForgotten CardState.init GlobalState.init).2 rfl⟩

/-- A throwaway model of the transcendental functions, for concrete
instantiations. -/
def trivFs : Simple8Funs :=
  { expE := fun _ => 0, log2 := fun _ => 0, powHalf := fun _ => 0 }

/-- C10: the five-parameter (SM5) `update_state` never changes the
`failed_count` field, for every quality (success or failure), unlike the
classic (SM2) and eight-parameter (Simple8) models, which increment it on
every failed review; so the leech flag, set once `failed_count` reaches
the threshold, cannot start accruing under SM5 alone. -/
theorem sm5_preserves_failed_count (quality : Quality) (state : CardState)
    (global : GlobalState) :
    ((sm5_update quality state global).1.failed_count = state.failed_count)
    ∧ (quality.failed = true →
        (sm2_update quality state).failed_count = state.failed_count + 1
        ∧ ∀ fs, (simple8_update fs quality state global).failed_count
            = state.failed_count + 1) := by
  constructor
  · unfold sm5_update
    split <;> rfl
  · intro hf
    constructor
    · unfold sm2_update
      simp [hf]
    · intro fs
      unfold simple8_update
      simp [hf]

/-- Witness for C10 at a concrete failed review. -/
theorem sm5_preserves_failed_count_witness :
    ((sm5_update Quality.IncorrectAndForgotten CardState.init GlobalState.init).1.failed_count
      = CardState.init.failed_count)
    ∧ ((sm2_update Quality.IncorrectAndForgotten CardState.init).failed_count
        = CardState.init.failed_count + 1)
    ∧ ((simple8_update trivFs Quality.IncorrectAndForgotten CardState.init GlobalState.init).failed_count
        = CardState.init.failed_count + 1) :=
  ⟨(sm5_preserves_failed_count Quality.IncorrectAndForgotten CardState.init GlobalState.init).1,
   ((sm5_preserves_failed_count Quality.IncorrectAndForgotten CardState.init GlobalState.init).2 rfl).1,
   ((sm5_preserves_failed_count Quality.IncorrectAndForgotten CardState.init GlobalState.init).2 rfl).2 trivFs⟩

/-- The shared recurrence never returns a value below 1.3. -/
lemma new_ease_factor_ge (quality : Quality) (ease_factor : ℚ) :
    (1.3 : ℚ) ≤ new_ease_factor quality ease_factor :=
  le_max_right _ _

/-- One `update_state` step of any algorithm keeps the ease factor at or
above the lesser of its current value and 1.3: SM2 and SM5 either leave it
unchanged (failed review) or set it through the clamped recurrence, and
Simple8 never writes it at all. -/
lemma applyAlgo_ease_floor (fs : Simple8Funs) (algo : Algo) (quality : Quality)
    (sg : CardState × GlobalState) :
    min sg.1.ease_factor 1.3 ≤ (applyAlgo fs algo quality sg).1.ease_factor := by
  cases algo with
  | SM2 =>
    show min sg.1.ease_factor 1.3 ≤ (sm2_update quality sg.1).ease_factor
    unfold sm2_update
    split
    · exact min_le_left _ _
    · split <;>
        exact le_trans (min_le_right _ _) (new_ease_factor_ge _ _)
  | SM5 =>
    show min sg.1.ease_factor 1.3 ≤ (sm5_update quality sg.1 sg.2).1.ease_factor
    unfold sm5_update
    split
    · exact min_le_left _ _
    · exact le_trans (min_le_right _ _) (new_ease_factor_ge _ _)
  | Simple8 =>
    show min sg.1.ease_factor 1.3 ≤ (simple8_update fs quality sg.1 sg.2).ease_factor
    unfold simple8_update
    split
    · exact min_le_left _ _
    · split <;> exact min_le_left _ _

/-- Running any review sequence preserves the floor. -/
lemma runSeq_ease_floor (fs : Simple8Funs) (steps : List (Algo × Quality)) :
    ∀ sg : CardState × GlobalState,
      min sg.1.ease_factor 1.3 ≤ (runSeq fs steps sg).1.ease_factor := by
  induction steps with
  | nil => exact fun sg => min_le_left _ _
  | cons step rest ih =>
    intro sg
    have h1 := applyAlgo_ease_floor fs step.1 step.2 sg
    have h2 := ih (applyAlgo fs step.1 step.2 sg)
    calc min sg.1.ease_factor 1.3
        ≤ min (applyAlgo fs step.1 step.2 sg).1.ease_factor 1.3 :=
          le_min h1 (min_le_right _ _)
      _ ≤ (runSeq fs rest (applyAlgo fs step.1 step.2 sg)).1.ease_factor := h2

/-- C2: for every model of the transcendental float functions, every
review sequence through the three algorithms, and every starting state,
the ease factor never drops below 1.3: it always stays at or above the
lesser of its starting value and 1.3, and in particular a start at or
above 1.3 (including exactly 1.3 under any run of failed reviews) stays at
or above 1.3. -/
theorem ease_factor_never_below_floor (fs : Simple8Funs)
    (steps : List (Algo × Quality)) (state : CardState) (global : GlobalState) :
    min state.ease_factor 1.3 ≤ (runSeq fs steps (state, global)).1.ease_factor
    ∧ ((1.3 : ℚ) ≤ state.ease_factor →
        (1.3 : ℚ) ≤ (runSeq fs steps (state, global)).1.ease_factor) := by
  refine ⟨runSeq_ease_floor fs steps (state, global), fun h => ?_⟩
  have := runSeq_ease_floor fs steps (state, global)
  rwa [min_eq_right h] at this

/-- A state sitting exactly at the 1.3 floor. -/
def floorState : CardState :=
  { ease_factor := 1.3, interval := 0, repetitions := 0, failed_count := 0 }

/-- A long run of IncorrectAndForgotten reviews, cycling through all three
algorithms. -/
def forgottenRun : List (Algo × Quality) :=
  (List.replicate 10 ((Algo.SM2, Quality.IncorrectAndForgotten)))
    ++ (List.replicate 10 ((Algo.SM5, Quality.IncorrectAndForgotten)))
    ++ (List.replicate 10 ((Algo.Simple8, Quality.IncorrectAndForgotten)))

/-- Witness for C2: a thirty-step run of IncorrectAndForgotten reviews
through all three algorithms, starting exactly at ease factor 1.3, ends at
or above 1.3. -/
theorem ease_factor_never_below_floor_witness :
    (1.3 : ℚ) ≤ (runSeq trivFs forgottenRun (floorState, GlobalState.init)).1.ease_factor :=
  (ease_factor_never_below_floor trivFs forgottenRun floorState GlobalState.init).2
    (by norm_num [floorState])

/-- C9 (amended): the round-then-convert composites performed at
`src/algorithm/sm2.rs:23`, `src/algorithm/sm5.rs:83` and
`src/algorithm/simple8.rs:19` round half away from zero on every finite
value and saturate into the `u64` range on extreme inputs (NaN and
negative infinity to 0, positive infinity to `u64::MAX`); the bare
conversion itself saturates but truncates, so the first-interval
conversion at `src/algorithm/simple8.rs:13`, which applies no rounding,
truncates toward zero. -/
theorem interval_conversions_round_and_saturate (x : ℚ) :
    round_then_convert (FV.fin x) = u64_saturate (roundHalf x)
    ∧ round_then_convert FV.nan = 0
    ∧ round_then_convert FV.posInf = 18446744073709551615
    ∧ round_then_convert FV.negInf = 0
    ∧ safe_f64_to_u64 (roundQ x) = u64_saturate (roundHalf x)
    ∧ f64_to_u64 (roundQ x) = u64_saturate (roundHalf x)
    ∧ safe_f64_to_u64 x = u64_saturate ⌊x⌋ := by
  refine ⟨?_, rfl, rfl, rfl, ?_, ?_, rfl⟩ <;>
    simp [round_then_convert, FV.roundF, FV.toU64sat, roundQ,
      safe_f64_to_u64, f64_to_u64, Int.floor_intCast]

/-- A model of the transcendental functions agreeing with the real
exponential at the one point the counterexample evaluates:
e^(-0.285) = 0.752014... (truncated to ten decimals, which is enough to
separate floor and round). -/
def expModelFs : Simple8Funs :=
  { expE := fun _ => 7520141760/10000000000
    log2 := fun _ => 0
    powHalf := fun _ => 1 }

/-- A default card that has already failed five times. -/
def state5 : CardState :=
  { ease_factor := 2.5, interval := 0, repetitions := 0, failed_count := 5 }

/-- Counterexample to C9 as stated: the first success after five failures
under the eight-parameter model converts `first_interval(5)`, about
1.8687, with no rounding; the interval stored is 1, while rounding half
away from zero would store 2 (the in-repository test
`test_simple8_corner_cases` pins exactly this: `interval > 0 && interval < 2`). -/
theorem simple8_first_interval_conversion_truncates :
    ((simple8_update expModelFs Quality.Perfect state5 GlobalState.init).interval = 1)
    ∧ roundHalf (first_interval expModelFs 5) = 2 := by
  constructor
  · simp only [simple8_update, state5, Quality.failed, first_interval, expModelFs,
      safe_f64_to_u64, u64_saturate]
    norm_num
  · simp only [roundHalf, first_interval, expModelFs]
    norm_num

/-- C7: the due predicate of the scheduler, for every card entry: a
never-reviewed card is due in every mode; in cram mode a reviewed card is
due exactly when at least `cram_hours` hours have elapsed since its last
review; in normal mode exactly when `today` has reached the last review
plus `interval` days. -/
theorem due_predicate_spec (today : ℚ) (cram_hours : ℕ) (c : CardEntry) :
    (c.last_revised = none →
      is_due today true cram_hours c = true ∧ is_due today false cram_hours c = true)
    ∧ (∀ lr, c.last_revised = some lr →
        (is_due today true cram_hours c = true ↔ today - lr ≥ 3600 * (cram_hours : ℚ)))
    ∧ (∀ lr, c.last_revised = some lr →
        (is_due today false cram_hours c = true ↔
          today ≥ lr + 86400 * (c.state.interval : ℚ))) := by
  refine ⟨fun h => ?_, fun lr h => ?_, fun lr h => ?_⟩ <;>
    simp [is_due, h]

/-- A card entry last revised at time `lr` with review interval
`interval`, everything else defaulted; the concrete instances the spec
lists are built from it. -/
def revisedEntry (lr : ℚ) (interval : ℕ) : CardEntry :=
  { added := 0
    card := { id := 0, file := "f", line := 0, prompt := "p", response := [], tags := [] }
    last_revised := some lr
    leech := false
    orphan := false
    revise_count := 1
    state := { ease_factor := 2.5, interval := interval, repetitions := 1, failed_count := 0 } }

/-- Witness for C7 at the concrete instances of the spec: a card revised
two days ago with interval 1 is due; a card revised just now with interval
10 is not due; under cram mode with a 12-hour threshold a card last
revised 13 hours ago is due and one revised 11 hours ago is not. -/
theorem due_predicate_spec_witness :
    is_due 172800 false 12 (revisedEntry 0 1) = true
    ∧ is_due 0 false 12 (revisedEntry 0 10) ≠ true
    ∧ is_due 46800 true 12 (revisedEntry 0 2) = true
    ∧ is_due 39600 true 12 (revisedEntry 0 2) ≠ true := by
  refine ⟨?_, ?_, ?_, ?_⟩
  · exact ((due_predicate_spec 172800 12 (revisedEntry 0 1)).2.2 0 rfl).mpr
      (by norm_num [revisedEntry])
  · intro h
    have := ((due_predicate_spec 0 12 (revisedEntry 0 10)).2.2 0 rfl).mp h
    norm_num [revisedEntry] at this
  · exact ((due_predicate_spec 46800 12 (revisedEntry 0 2)).2.1 0 rfl).mpr (by norm_num)
  · intro h
    have := ((due_predicate_spec 39600 12 (revisedEntry 0 2)).2.1 0 rfl).mp h
    norm_num at this

/-- C8: `refresh_global_state` always stamps `last_revise_session = now`;
when a previous session exists it resets `mean_q` and
`total_cards_revised` exactly when strictly more than seven days have
elapsed (an elapsed time of exactly seven days does not reset), and with
no previous session nothing is reset. -/
theorem refresh_global_state_spec (now : ℚ) (state : GlobalState) :
    (refresh_global_state now state).last_revise_session = some now
    ∧ (∀ last, state.last_revise_session = some last →
        (now - last > oneWeek →
          (refresh_global_state now state).mean_q = none
          ∧ (refresh_global_state now state).total_cards_revised = 0)
        ∧ (¬ now - last > oneWeek →
          (refresh_global_state now state).mean_q = state.mean_q
          ∧ (refresh_global_state now state).total_cards_revised
            = state.total_cards_revised))
    ∧ (state.last_revise_session = none →
        (refresh_global_state now state).mean_q = state.mean_q
        ∧ (refresh_global_state now state).total_cards_revised
          = state.total_cards_revised) := by
  refine ⟨rfl, fun last h => ⟨fun hgt => ?_, fun hle => ?_⟩, fun h => ?_⟩
  · simp only [refresh_global_state, h]
    rw [if_pos hgt]
    exact ⟨rfl, rfl⟩
  · simp only [refresh_global_state, h]
    rw [if_neg hle]
    exact ⟨rfl, rfl⟩
  · simp [refresh_global_state, h]

/-- A global state whose last session was at time 0, with statistics
present. -/
def sessionState : GlobalState :=
  { optimal_factor_matrix := fun _ => none
    last_revise_session := some 0
    mean_q := some 3
    total_cards_revised := 4 }

/-- Witness for C8 at the boundary: refreshing `sessionState` exactly
604800 seconds (7 days) later keeps the statistics and stamps the session
time; refreshing one second after that resets both. -/
theorem refresh_global_state_spec_witness :
    (refresh_global_state 604800 sessionState).last_revise_session = some 604800
    ∧ (refresh_global_state 604800 sessionState).mean_q = some 3
    ∧ (refresh_global_state 604800 sessionState).total_cards_revised = 4
    ∧ (refresh_global_state 604801 sessionState).mean_q = none
    ∧ (refresh_global_state 604801 sessionState).total_cards_revised = 0 := by
  have h7 := refresh_global_state_spec 604800 sessionState
  have h8 := refresh_global_state_spec 604801 sessionState
  have hkeep := (h7.2.1 0 rfl).2 (by norm_num [oneWeek])
  have hreset := (h8.2.1 0 rfl).1 (by norm_num [oneWeek])
  exact ⟨h7.1, hkeep.1, hkeep.2, hreset.1, hreset.2⟩

/-- Evaluating the fold that builds `foundMap` under any accumulator: the
last card of `found` with the requested id wins, and the accumulator
answers when no found card has the id. -/
lemma foldl_insert_found (now : ℚ) : ∀ (found : List Card) (m : CardDb) (id : ℕ),
    (found.foldl
      (fun m c => fun i => if i = c.id then some (CardEntry.new now c) else m i) m) id
    = match findLastCard found id with
      | some c => some (CardEntry.new now c)
      | none => m id := by
  intro found
  induction found with
  | nil => intro m id; rfl
  | cons c cs ih =>
    intro m id
    rw [List.foldl_cons, ih]
    cases h : findLastCard cs id with
    | some c' => simp [findLastCard, h]
    | none =>
      by_cases hc : c.id = id
      · simp [findLastCard, h, hc]
      · have hc' : ¬ id = c.id := fun he => hc he.symm
        simp [findLastCard, h, hc, hc']

/-- `foundMap` returns the entry freshly built from the last card of
`found` carrying the id. -/
lemma foundMap_eq_findLast (now : ℚ) (found : List Card) (id : ℕ) :
    foundMap now found id = (findLastCard found id).map (CardEntry.new now) := by
  have h2 : (match findLastCard found id with
      | some c => some (CardEntry.new now c)
      | none => emptyDb id) = (findLastCard found id).map (CardEntry.new now) := by
    cases h : findLastCard found id <;> simp [emptyDb]
  exact (foldl_insert_found now found emptyDb id).trans h2

/-- `findLastCard` succeeds exactly on the ids of `found`. -/
lemma findLastCard_isSome (found : List Card) (id : ℕ) :
    (findLastCard found id).isSome = inFoundIds found id := by
  induction found with
  | nil => rfl
  | cons c cs ih =>
    unfold findLastCard
    cases h : findLastCard cs id with
    | some c' =>
      have h2 : inFoundIds cs id = true := by rw [← ih, h]; rfl
      unfold inFoundIds at h2 ⊢
      rw [List.any_cons, h2, Bool.or_true]
      rfl
    | none =>
      have h2 : inFoundIds cs id = false := by rw [← ih, h]; rfl
      unfold inFoundIds at h2 ⊢
      rw [List.any_cons, h2, Bool.or_false]
      by_cases hc : c.id = id
      · simp [hc]
      · simp [hc]

/-- The entry kept for an id both existing and found carries the found
card and has `orphan` cleared. -/
lemma merge_entry_card_orphan (entry newE : CardEntry) :
    (merge_entry entry newE).card = newE.card
    ∧ (merge_entry entry newE).orphan = false := by
  unfold merge_entry
  by_cases hc : entry.card = newE.card <;>
    by_cases ho : entry.orphan <;>
      simp [hc, ho]

/-- Merging is the identity once the entry already carries the found card
and is not an orphan. -/
lemma merge_entry_self (entry newE : CardEntry) (hcard : entry.card = newE.card)
    (horph : entry.orphan = false) : merge_entry entry newE = entry := by
  unfold merge_entry
  rw [if_neg (fun h => h hcard)]
  simp [horph]

/-- C4 (amended): for every store and every NON-EMPTY found-card list,
reconciliation with `full = true` marks exactly the existing ids absent
from the found list as orphans, clears the orphan flag on every existing
id that reappears in the found list, and never deletes an id.  (With an
empty found list `update_db` returns early and marks nothing.) -/
theorem update_db_full_orphan_spec (now : ℚ) (db : CardDb) (found : List Card)
    (hne : found ≠ []) :
    (∀ id e, db id = some e → inFoundIds found id = false →
        update_db now db found true id = some { e with orphan := true })
    ∧ (∀ id e, db id = some e → inFoundIds found id = true →
        ∃ e', update_db now db found true id = some e' ∧ e'.orphan = false)
    ∧ (∀ id, (db id).isSome → (update_db now db found true id).isSome) := by
  have hE : found.isEmpty = false := by
    cases found with
    | nil => exact absurd rfl hne
    | cons c cs => rfl
  refine ⟨fun id e he hnf => ?_, fun id e he hf => ?_, fun id hs => ?_⟩
  · have hlast : findLastCard found id = none := by
      have := findLastCard_isSome found id
      rw [hnf] at this
      exact Option.not_isSome_iff_eq_none.mp (by rw [this]; exact Bool.false_ne_true)
    unfold update_db
    rw [hE]
    simp only [Bool.false_eq_true, if_false]
    rw [foundMap_eq_findLast, hlast, he]
    rfl
  · have hlast : (findLastCard found id).isSome = true := by
      rw [findLastCard_isSome, hf]
    obtain ⟨c, hc⟩ := Option.isSome_iff_exists.mp hlast
    unfold update_db
    rw [hE]
    simp only [Bool.false_eq_true, if_false]
    rw [foundMap_eq_findLast, hc, he]
    exact ⟨_, rfl, (merge_entry_card_orphan e (CardEntry.new now c)).2⟩
  · obtain ⟨e, he⟩ := Option.isSome_iff_exists.mp hs
    unfold update_db
    rw [hE]
    simp only [Bool.false_eq_true, if_false]
    rw [foundMap_eq_findLast, he]
    cases hlast : findLastCard found id <;> rfl

/-- An entry for the concrete counterexample stores, not an orphan. -/
def plainEntry (id : ℕ) : CardEntry :=
  CardEntry.new 0
    { id := id, file := "f", line := 0, prompt := "p", response := [], tags := [] }

/-- A two-entry store holding ids 0 and 1. -/
def twoDb : CardDb := fun i =>
  if i = 0 then some (plainEntry 0)
  else if i = 1 then some (plainEntry 1) else none

/-- The found list for the C4 witness: only id 1 reappears. -/
def foundOne : List Card :=
  [{ id := 1, file := "g", line := 2, prompt := "q", response := [], tags := [] }]

/-- Witness for C4 (amended) on the concrete two-entry store: the full
reconciliation against a found list containing only id 1 marks id 0 as an
orphan, keeps id 1 with the orphan flag clear, and keeps id 0 present. -/
theorem update_db_full_orphan_spec_witness :
    update_db 0 twoDb foundOne true 0 = some { plainEntry 0 with orphan := true }
    ∧ (∃ e', update_db 0 twoDb foundOne true 1 = some e' ∧ e'.orphan = false)
    ∧ (update_db 0 twoDb foundOne true 0).isSome := by
  obtain ⟨h1, h2, h3⟩ :=
    update_db_full_orphan_spec 0 twoDb foundOne (List.cons_ne_nil _ _)
  exact ⟨h1 0 (plainEntry 0) rfl (by decide), h2 1 (plainEntry 1) rfl (by decide),
    h3 0 rfl⟩

/-- Counterexample to C4 as stated: with the empty found list,
`update_db` returns early (`src/db.rs:164-167`); the sole existing id 0 is
absent from the found list yet is not marked as an orphan. -/
theorem update_db_empty_found_no_orphan :
    update_db 0 twoDb [] true 0 = some (plainEntry 0)
    ∧ (plainEntry 0).orphan = false := by
  exact ⟨rfl, rfl⟩

/-- C5: reconciliation is idempotent: for every store, found-card list and
`full` flag, running `update_db` a second time over its own result with
the same found list (at any later wall-clock time) changes nothing,
pointwise at every id. -/
theorem update_db_idempotent (now1 now2 : ℚ) (db : CardDb) (found : List Card)
    (full : Bool) (id : ℕ) :
    update_db now2 (update_db now1 db found full) found full id
      = update_db now1 db found full id := by
  cases hE : found.isEmpty with
  | true => simp [update_db, hE]
  | false =>
    simp only [update_db, hE, Bool.false_eq_true, if_false]
    rw [foundMap_eq_findLast now1, foundMap_eq_findLast now2]
    cases hf : findLastCard found id with
    | none =>
      cases hd : db id with
      | none => rfl
      | some e => cases full <;> rfl
    | some c =>
      cases hd : db id with
      | none =>
        exact congrArg some
          (merge_entry_self (CardEntry.new now1 c) (CardEntry.new now2 c) rfl rfl)
      | some e =>
        exact congrArg some
          (merge_entry_self (merge_entry e (CardEntry.new now1 c)) (CardEntry.new now2 c)
            ((merge_entry_card_orphan e (CardEntry.new now1 c)).1.trans rfl)
            (merge_entry_card_orphan e (CardEntry.new now1 c)).2)

/-- C1 (amended): `get_db` returns the empty store for a missing file and
for a file whose content trims to empty, but text that does not
deserialize in a non-blank file is a hard error (`Failed to deserialise
db`), not an empty store.  The in-repository test `test_corrupted_db_file`
asserts exactly this error behaviour. -/
theorem get_db_tolerant_spec (parse : String → Except String (List CardEntry))
    (content : String) :
    get_db parse FileState.absent = Except.ok emptyDb
    ∧ (trimIsEmpty content = true →
        get_db parse (FileState.present content) = Except.ok emptyDb)
    ∧ (∀ msg, trimIsEmpty content = false → parse content = Except.error msg →
        get_db parse (FileState.present content)
          = Except.error "Failed to deserialise db") := by
  refine ⟨rfl, fun h => ?_, fun msg hb hp => ?_⟩
  · simp [get_db, h]
  · simp [get_db, hb, hp]

/-- A deserializer that rejects every input, modelling `serde_json` on a
file whose text does not deserialize. -/
def badParse : String → Except String (List CardEntry) :=
  fun _ => Except.error ("expected value")

/-- Witness for C1 (amended): with a failing deserializer, the absent
file and a whitespace-only file load as the empty store, and a non-blank
unparsable file errors. -/
theorem get_db_tolerant_spec_witness :
    get_db badParse FileState.absent = Except.ok emptyDb
    ∧ get_db badParse (FileState.present ("  ")) = Except.ok emptyDb
    ∧ get_db badParse (FileState.present ("x"))
        = Except.error "Failed to deserialise db" :=
  ⟨(get_db_tolerant_spec badParse ("  ")).1,
   (get_db_tolerant_spec badParse ("  ")).2.1 (by decide),
   (get_db_tolerant_spec badParse ("x")).2.2 "expected value" (by decide) rfl⟩

/-- Counterexample to C1 as stated: a present file holding the text
`invalid json content` followed by an opening brace (the exact fixture of
`test_corrupted_db_file`) does not deserialize, and `get_db` returns an
error for it rather than an empty store. -/
theorem get_db_unparsable_is_error :
    get_db badParse (FileState.present ("invalid json content \x7b"))
      = Except.error "Failed to deserialise db" := by
  simp [get_db, badParse, show trimIsEmpty ("invalid json content \x7b") = false from by decide]

end Carddown
